import Mathlib

/-!
Verification of the mapping-resolution and persistence-orchestration engine
of the MobX-RESTful migrator (`src/RestMigrator.ts`), shallowly embedded.

JS values are modelled by `Value` (with `Value.null` standing for both
`null` and `undefined`, which the engine treats identically via `??=` and
`!= null`).  Thrown errors are modelled by `MError`, whose `rangeError`
constructor corresponds to JS `RangeError` — the kind the engine's
`handleError` singles out as the skip signal.  Store classes are modelled
by behaviour records (`PrimaryStoreSpec`, `RelatedStoreSpec`); instance
creation, store calls and event-bus callbacks are logged in an explicit
`Event` trace, and `boot`'s yielded sequence is an explicit list.
-/

/-- A JS value as the engine observes it: nullish, primitive, or object. -/
inductive Value where
  | null : Value
  | str : String → Value
  | num : Int → Value
  | obj : List (String × Value) → Value

/-- `v == null` / `v == undefined` test (the engine's nullish checks). -/
def Value.isNull : Value → Bool
  | .null => true
  | _ => false

/-- Property lookup on a JS object represented as an association list;
missing keys read as `undefined` (modelled `Value.null`). -/
def lookupField : List (String × Value) → String → Value
  | [], _ => .null
  | (k, v) :: rest, key => if k = key then v else lookupField rest key

/-- `record[key]` on an arbitrary value (non-objects read `undefined`). -/
def Value.getField : Value → String → Value
  | .obj fields, key => lookupField fields key
  | _, _ => .null

/-- Template-literal rendering of a value, as used in the duplicate
error message. -/
def Value.render : Value → String
  | .null => "null"
  | .str s => s
  | .num n => toString n
  | .obj _ => "[object Object]"

/-- A thrown JS error, distinguished only by the property the engine
inspects: whether it is a `RangeError` (`error instanceof RangeError`). -/
inductive MError where
  | rangeError (msg : String)
  | genericError (msg : String)

/-- `error instanceof RangeError` (line 55 of `RestMigrator.ts`). -/
def MError.isRangeError : MError → Bool
  | .rangeError _ => true
  | _ => false

/-- The message of the duplicate signal thrown by the uniqueness check
(the TS template wraps the key in single quotes, elided here). -/
def dupMsg (key : String) (v : Value) : String :=
  "Duplicate value for unique field " ++ key ++ ": " ++ v.render

/-- Behaviour of a related-store class (`model` in a descriptor): its
`indexKey` and the result of `updateOne` on a sub-record.  `id` tags the
class so instance-creation events are traceable. -/
structure RelatedStoreSpec where
  id : Nat
  indexKey : String
  updateOne : Value → Except MError Value

/-- A target-field descriptor `{value?, unique?, model?}`;
`value := Value.null` models an omitted / null / undefined `value`. -/
structure Descriptor where
  value : Value
  unique : Bool
  model : Option RelatedStoreSpec

/-- A `TargetPatch`: target field name ↦ descriptor, in key order. -/
abbrev TargetPatchSpec := List (String × Descriptor)

/-- One entry of the migration schema: a string rename, a literal patch
object, or a resolver function of the whole source record (which may
throw). -/
inductive FieldMapping where
  | rename (targetField : String)
  | literal (patch : TargetPatchSpec)
  | resolver (f : List (String × Value) → Except MError TargetPatchSpec)

/-- The migration schema: source field name ↦ mapping, in declaration
(key-iteration) order. -/
abbrev MigrationSchema := List (String × FieldMapping)

/-- Behaviour of the primary target-store class (`TargetModel`):
`updateOne` on a merged patch, and whether `getList({key: value}, 1, 1)`
finds an existing record. -/
structure PrimaryStoreSpec where
  updateOne : List (String × Value) → Except MError Value
  getListHas : String → Value → Bool

/-- A `MigrationProgress` payload as passed to the event bus. -/
structure Progress where
  index : Nat
  sourceItem : List (String × Value)
  mappedData : Option Value
  targetItem : Option Value
  error : Option MError

/-- One observable step of a run: an event-bus callback, a store-class
instantiation, or a store call. -/
inductive Event where
  | save (p : Progress)
  | skip (p : Progress)
  | error (p : Progress)
  | newPrimaryInstance
  | newRelatedInstance (storeId : Nat)
  | primaryUpdateOne (patch : List (String × Value))
  | relatedUpdateOne (storeId : Nat) (value : Value)
  | primaryGetList (key : String) (value : Value)

def Event.isSave : Event → Bool
  | .save _ => true
  | _ => false

def Event.isSkip : Event → Bool
  | .skip _ => true
  | _ => false

def Event.isError : Event → Bool
  | .error _ => true
  | _ => false

/-- Any `updateOne` call on any store (primary or related). -/
def Event.isUpsert : Event → Bool
  | .primaryUpdateOne _ => true
  | .relatedUpdateOne _ _ => true
  | _ => false

def Event.isNewPrimary : Event → Bool
  | .newPrimaryInstance => true
  | _ => false

def Event.isNewRelated : Event → Bool
  | .newRelatedInstance _ => true
  | _ => false

/-- `RestMigrator.handleError` (lines 54–61): route the payload to the
`skip` callback exactly when the error is a `RangeError`, else to the
`error` callback. -/
def handleError (index : Nat) (sourceItem : List (String × Value))
    (mappedData : Option Value) (err : MError) : Event :=
  if err.isRangeError then
    .skip ⟨index, sourceItem, mappedData, none, some err⟩
  else
    .error ⟨index, sourceItem, mappedData, none, some err⟩

/-- One iteration of the `for (const key in mapping)` loop of
`applyObjectMapping` (lines 104–127): default the descriptor value to the
source value (`value ??= sourceValue`), drop nullish values, run the
uniqueness check (throwing the duplicate `RangeError` on a hit), or run
the relation branch when a `model` is present and not in dry-run.
Returns the emitted events and either a thrown error or the optional
`[key, value]` pair yielded for this entry. -/
def applyEntry (prim : PrimaryStoreSpec) (dryRun : Bool) (sourceValue : Value)
    (index : Nat) (sourceItem : List (String × Value)) (entry : String × Descriptor) :
    List Event × Except MError (Option (String × Value)) :=
  let key := entry.1
  let d := entry.2
  let value := if d.value.isNull then sourceValue else d.value
  if value.isNull then ([], .ok none)
  else if d.unique then
    if prim.getListHas key value then
      ([.primaryGetList key value], .error (.rangeError (dupMsg key value)))
    else
      ([.primaryGetList key value], .ok (some (key, value)))
  else
    match d.model, dryRun with
    | some store, false =>
      match store.updateOne value with
      | .ok saved =>
        ([.newRelatedInstance store.id, .relatedUpdateOne store.id value,
          .save ⟨index, sourceItem, some value, some saved, none⟩],
         .ok (some (key, saved.getField store.indexKey)))
      | .error e =>
        ([.newRelatedInstance store.id, .relatedUpdateOne store.id value,
          handleError index sourceItem (some value) e],
         .ok none)
    | _, _ => ([], .ok (some (key, value)))

/-- The loop of `applyObjectMapping` over all entries of a resolved
patch: a thrown error aborts the generator; otherwise the yielded pairs
are concatenated in entry order. -/
def applyObjectMappingGo (prim : PrimaryStoreSpec) (dryRun : Bool) (sourceValue : Value)
    (index : Nat) (sourceItem : List (String × Value)) :
    TargetPatchSpec → List Event × Except MError (List (String × Value))
  | [] => ([], .ok [])
  | entry :: rest =>
    match applyEntry prim dryRun sourceValue index sourceItem entry with
    | (evts, .error e) => (evts, .error e)
    | (evts, .ok opt) =>
      match applyObjectMappingGo prim dryRun sourceValue index sourceItem rest with
      | (evts', .error e) => (evts ++ evts', .error e)
      | (evts', .ok pairs) => (evts ++ evts', .ok (opt.toList ++ pairs))

/-- `RestMigrator.applyObjectMapping` (lines 88–128): creates a fresh
primary-store instance (`const targetStore = new TargetModel()`,
line 102), then processes every entry of the patch. -/
def applyObjectMapping (prim : PrimaryStoreSpec) (dryRun : Bool) (sourceValue : Value)
    (index : Nat) (sourceItem : List (String × Value)) (mapping : TargetPatchSpec) :
    List Event × Except MError (List (String × Value)) :=
  let r := applyObjectMappingGo prim dryRun sourceValue index sourceItem mapping
  (.newPrimaryInstance :: r.1, r.2)

/-- Resolution of one schema entry to a target patch (lines 70–77):
a resolver function is applied to the whole source record and may throw;
a string becomes `{ [mapping]: { value } }`; a literal patch is used
as-is. -/
def resolveMapping (m : FieldMapping) (sourceItem : List (String × Value))
    (value : Value) : Except MError TargetPatchSpec :=
  match m with
  | .resolver f => f sourceItem
  | .rename t => .ok [(t, ⟨value, false, none⟩)]
  | .literal p => .ok p

/-- `RestMigrator.mapFields` (lines 66–86): iterate the schema in
declaration order, resolve each mapping, and delegate each resolved
patch to `applyObjectMapping`; pairs are yielded in order, a thrown
error aborts the generator. -/
def mapFieldsGo (prim : PrimaryStoreSpec) (dryRun : Bool)
    (index : Nat) (sourceItem : List (String × Value)) :
    MigrationSchema → List Event × Except MError (List (String × Value))
  | [] => ([], .ok [])
  | (sourceField, m) :: rest =>
    let value := lookupField sourceItem sourceField
    match resolveMapping m sourceItem value with
    | .error e => ([], .error e)
    | .ok patch =>
      match applyObjectMapping prim dryRun value index sourceItem patch with
      | (evts, .error e) => (evts, .error e)
      | (evts, .ok pairs) =>
        match mapFieldsGo prim dryRun index sourceItem rest with
        | (evts', r) => (evts ++ evts', r.map fun ps => pairs ++ ps)

/-- JS object update: set `key` to `v`, keeping first-insertion key
order, overwriting an existing binding. -/
def setEntry : List (String × Value) → String → Value → List (String × Value)
  | [], k, v => [(k, v)]
  | (k', v') :: rest, k, v =>
    if k' = k then (k, v) :: rest else (k', v') :: setEntry rest k v

/-- `Object.fromEntries`: later entries overwrite earlier ones. -/
def fromEntries (l : List (String × Value)) : List (String × Value) :=
  l.foldl (fun acc kv => setEntry acc kv.1 kv.2) []

/-- The body of `boot`'s per-record `try`/`catch` (lines 32–50): collect
the field pairs, build `mappedData` via `Object.fromEntries`; in dry-run
yield the patch; otherwise call the primary store's `updateOne`, yield
the result and emit `save` — any thrown error is classified by
`handleError`, with `mappedData` still `undefined` when the failure
happened during field resolution. -/
def processRecord (prim : PrimaryStoreSpec) (dryRun : Bool) (schema : MigrationSchema)
    (index : Nat) (sourceItem : List (String × Value)) : List Event × Option Value :=
  match mapFieldsGo prim dryRun index sourceItem schema with
  | (evts, .error e) => (evts ++ [handleError index sourceItem none e], none)
  | (evts, .ok pairs) =>
    let mappedData := fromEntries pairs
    if dryRun then (evts, some (.obj mappedData))
    else
      match prim.updateOne mappedData with
      | .ok targetItem =>
        (evts ++ [.primaryUpdateOne mappedData,
                  .save ⟨index, sourceItem, some (.obj mappedData), some targetItem, none⟩],
         some targetItem)
      | .error e =>
        (evts ++ [.primaryUpdateOne mappedData,
                  handleError index sourceItem (some (.obj mappedData)) e],
         none)

/-- The `for await` loop of `boot`: `++index` before each record, so the
record drawn when the counter reads `n` is processed at index `n + 1`. -/
def bootLoop (prim : PrimaryStoreSpec) (dryRun : Bool) (schema : MigrationSchema) :
    Nat → List (List (String × Value)) → List Event × List Value
  | _, [] => ([], [])
  | index, item :: rest =>
    let r := processRecord prim dryRun schema (index + 1) item
    let r' := bootLoop prim dryRun schema (index + 1) rest
    (r.1 ++ r'.1, r.2.toList ++ r'.2)

/-- `RestMigrator.boot` (lines 27–52): create the shared primary store
instance once, start the counter at 0, and process the whole source
sequence; returns the event trace and the yielded sequence. -/
def boot (prim : PrimaryStoreSpec) (dryRun : Bool) (schema : MigrationSchema)
    (items : List (List (String × Value))) : List Event × List Value :=
  let r := bootLoop prim dryRun schema 0 items
  (.newPrimaryInstance :: r.1, r.2)

/-- An `updateOne` call on the primary store specifically. -/
def Event.isPrimaryUpsert : Event → Bool
  | .primaryUpdateOne _ => true
  | _ => false

/-- First-match property lookup returning `none` on a miss (used to
state the last-write-wins merge property of `fromEntries`). -/
def lookupFieldOpt : List (String × Value) → String → Option Value
  | [], _ => none
  | (k, v) :: rest, key => if k = key then some v else lookupFieldOpt rest key

/-- The value `boot` yields for one source record in dry-run mode: the
constructed patch when field resolution succeeds, nothing otherwise. -/
def dryRunPatch (prim : PrimaryStoreSpec) (schema : MigrationSchema)
    (idx : Nat) (item : List (String × Value)) : Option Value :=
  match (mapFieldsGo prim true idx item schema).2 with
  | .ok pairs => some (.obj (fromEntries pairs))
  | .error _ => none

/-- Concrete fixture: a primary store whose `updateOne` echoes the patch
and whose uniqueness query never finds an existing record. -/
def primOk : PrimaryStoreSpec := ⟨fun p => .ok (.obj p), fun _ _ => false⟩

/-- Concrete fixture: a primary store pre-seeded so that every
uniqueness query finds an existing record. -/
def primDup : PrimaryStoreSpec := ⟨fun p => .ok (.obj p), fun _ _ => true⟩

/-- Concrete fixture: a primary store whose `updateOne` always fails. -/
def primFail : PrimaryStoreSpec :=
  ⟨fun _ => .error (.genericError "db down"), fun _ _ => false⟩

/-- Concrete fixture: a related store that persists any sub-record as
the record `{id: 42}` with index key `id`. -/
def relOk : RelatedStoreSpec := ⟨7, "id", fun _ => .ok (.obj [("id", .num 42)])⟩

/-- Concrete fixture: a related store whose `updateOne` always fails. -/
def relBad : RelatedStoreSpec := ⟨8, "id", fun _ => .error (.genericError "boom")⟩

/-- Concrete fixture: a two-field source record. -/
def itemA : List (String × Value) := [("a", .num 1), ("b", .num 2)]

/-- Concrete fixture: one plain string rename. -/
def schemaRename : MigrationSchema := [("a", .rename "t")]

/-- Concrete fixture: a rename followed by a resolver that throws a
generic (non-`RangeError`) error. -/
def schemaThrow : MigrationSchema :=
  [("a", .rename "t"), ("b", .resolver fun _ => .error (.genericError "boom"))]

/-- Concrete fixture: a single unique-flagged field whose descriptor
value defaults to the source value. -/
def schemaUnique : MigrationSchema := [("a", .literal [("t", ⟨.null, true, none⟩)])]

/-- Concrete fixture: a relation field (value `{n: 5}` persisted through
`relOk`) followed by a rename. -/
def schemaRel : MigrationSchema :=
  [("a", .literal [("u", ⟨.obj [("n", .num 5)], false, some relOk⟩)]), ("b", .rename "t")]

/-- Concrete fixture: like `schemaRel` but the related store fails. -/
def schemaRelBad : MigrationSchema :=
  [("a", .literal [("u", ⟨.obj [("n", .num 5)], false, some relBad⟩)]), ("b", .rename "t")]

/-! ### Merge lemmas: `Object.fromEntries` is a last-write-wins union -/

theorem lookupFieldOpt_append (l₁ l₂ : List (String × Value)) (key : String) :
    lookupFieldOpt (l₁ ++ l₂) key =
      match lookupFieldOpt l₁ key with
      | some v => some v
      | none => lookupFieldOpt l₂ key := by
  induction l₁ with
  | nil => simp [lookupFieldOpt]
  | cons kv rest ih =>
    obtain ⟨k, v⟩ := kv
    by_cases h : k = key <;> simp [lookupFieldOpt, h, ih]

theorem lookupField_eq_opt (l : List (String × Value)) (key : String) :
    lookupField l key = (lookupFieldOpt l key).getD .null := by
  induction l with
  | nil => simp [lookupField, lookupFieldOpt]
  | cons kv rest ih =>
    obtain ⟨k, v⟩ := kv
    by_cases h : k = key <;> simp [lookupField, lookupFieldOpt, h, ih]

theorem lookupField_setEntry (m : List (String × Value)) (k : String) (v : Value)
    (key : String) :
    lookupField (setEntry m k v) key = if k = key then v else lookupField m key := by
  induction m with
  | nil => by_cases h : k = key <;> simp [setEntry, lookupField, h]
  | cons kv rest ih =>
    obtain ⟨k', v'⟩ := kv
    by_cases hk : k' = k
    · subst hk
      by_cases h : k' = key <;> simp [setEntry, lookupField, h]
    · by_cases h : k' = key
      · subst h
        have : ¬ k = k' := fun hc => hk hc.symm
        simp [setEntry, lookupField, hk, this]
      · simp [setEntry, lookupField, hk, h, ih]

theorem foldl_setEntry_lookup (ps : List (String × Value)) (acc : List (String × Value))
    (key : String) :
    lookupField (ps.foldl (fun a kv => setEntry a kv.1 kv.2) acc) key =
      match lookupFieldOpt ps.reverse key with
      | some v => v
      | none => lookupField acc key := by
  induction ps generalizing acc with
  | nil => simp [lookupFieldOpt]
  | cons kv rest ih =>
    obtain ⟨k, v⟩ := kv
    have happ := lookupFieldOpt_append rest.reverse [(k, v)] key
    simp only [List.foldl_cons, List.reverse_cons]
    rw [ih, happ]
    rcases hro : lookupFieldOpt rest.reverse key with _ | w
    · by_cases h : k = key <;> simp [lookupFieldOpt, h, lookupField_setEntry]
    · simp

/-- `fromEntries` reads back as the reverse-order first match: the
last-declared entry for a key wins. -/
theorem lookupField_fromEntries (ps : List (String × Value)) (key : String) :
    lookupField (fromEntries ps) key = lookupField ps.reverse key := by
  rw [fromEntries, foldl_setEntry_lookup, lookupField_eq_opt ps.reverse]
  cases h : lookupFieldOpt ps.reverse key <;> simp [lookupField]

theorem lookupFieldOpt_isSome_of_mem (l : List (String × Value)) (key : String)
    (h : key ∈ l.map Prod.fst) : (lookupFieldOpt l key).isSome = true := by
  induction l with
  | nil => simp at h
  | cons kv rest ih =>
    obtain ⟨k, v⟩ := kv
    by_cases hk : k = key
    · simp [lookupFieldOpt, hk]
    · simp only [List.map_cons, List.mem_cons] at h
      rcases h with h | h
    
      · exact absurd h.symm hk
      · simp [lookupFieldOpt, hk, ih h]

/-- When the later pair list binds `key`, merging `p₁ ++ p₂` reads the
same value for `key` as merging `p₂` alone. -/
theorem fromEntries_append_right (p₁ p₂ : List (String × Value)) (key : String)
    (h : key ∈ p₂.map Prod.fst) :
    lookupField (fromEntries (p₁ ++ p₂)) key = lookupField (fromEntries p₂) key := by
  rw [lookupField_fromEntries, lookupField_fromEntries, List.reverse_append,
    lookupField_eq_opt, lookupField_eq_opt, lookupFieldOpt_append]
  have hs := lookupFieldOpt_isSome_of_mem p₂.reverse key (by simpa using h)
  rcases hro : lookupFieldOpt p₂.reverse key with _ | w
  · rw [hro] at hs; simp at hs
  · simp

/-! ### Event-shape helper lemmas -/

theorem isSave_handleError (i : Nat) (s : List (String × Value)) (md : Option Value)
    (e : MError) : Event.isSave (handleError i s md e) = false := by
  unfold handleError
  by_cases h : e.isRangeError = true <;> simp [h, Event.isSave]

theorem isUpsert_handleError (i : Nat) (s : List (String × Value)) (md : Option Value)
    (e : MError) : Event.isUpsert (handleError i s md e) = false := by
  unfold handleError
  by_cases h : e.isRangeError = true <;> simp [h, Event.isUpsert]

theorem isPrimaryUpsert_handleError (i : Nat) (s : List (String × Value)) (md : Option Value)
    (e : MError) : Event.isPrimaryUpsert (handleError i s md e) = false := by
  unfold handleError
  by_cases h : e.isRangeError = true <;> simp [h, Event.isPrimaryUpsert]

theorem isNewPrimary_handleError (i : Nat) (s : List (String × Value)) (md : Option Value)
    (e : MError) : Event.isNewPrimary (handleError i s md e) = false := by
  unfold handleError
  by_cases h : e.isRangeError = true <;> simp [h, Event.isNewPrimary]

/-- A single mapping-loop iteration never touches the boot-level primary
instance: it emits no `primaryUpdateOne` and no `newPrimaryInstance`. -/
theorem applyEntry_no_primary (prim : PrimaryStoreSpec) (dr : Bool) (sv : Value)
    (idx : Nat) (src : List (String × Value)) (entry : String × Descriptor) :
    ((applyEntry prim dr sv idx src entry).1.countP Event.isPrimaryUpsert = 0) ∧
    ((applyEntry prim dr sv idx src entry).1.countP Event.isNewPrimary = 0) := by
  obtain ⟨key, v, u, mo⟩ := entry
  unfold applyEntry
  dsimp only
  generalize (if v.isNull = true then sv else v) = w
  split
  · simp
  · split
    · split <;> simp [Event.isPrimaryUpsert, Event.isNewPrimary]
    · split
      · split
        · simp [Event.isPrimaryUpsert, Event.isNewPrimary]
        · next e heq =>
          by_cases hr : e.isRangeError = true <;>
            simp [handleError, hr, Event.isPrimaryUpsert, Event.isNewPrimary]
      · simp

/-- In dry-run a mapping-loop iteration performs no store write and
emits no save notification (the relation branch is skipped). -/
theorem applyEntry_dryRun_counts (prim : PrimaryStoreSpec) (sv : Value)
    (idx : Nat) (src : List (String × Value)) (entry : String × Descriptor) :
    ((applyEntry prim true sv idx src entry).1.countP Event.isUpsert = 0) ∧
    ((applyEntry prim true sv idx src entry).1.countP Event.isSave = 0) := by
  obtain ⟨key, v, u, mo⟩ := entry
  unfold applyEntry
  dsimp only
  generalize (if v.isNull = true then sv else v) = w
  split
  · simp
  · split
    · split <;> simp [Event.isUpsert, Event.isSave]
    · split
      · simp_all
      · simp

/-- Lifting a vanishing event count through the patch-entry loop. -/
theorem applyObjectMappingGo_countP (p : Event → Bool) (prim : PrimaryStoreSpec)
    (dr : Bool) (sv : Value) (idx : Nat) (src : List (String × Value))
    (h : ∀ entry, ((applyEntry prim dr sv idx src entry).1.countP p) = 0) :
    ∀ mapping, ((applyObjectMappingGo prim dr sv idx src mapping).1.countP p) = 0 := by
  intro mapping
  induction mapping with
  | nil => simp [applyObjectMappingGo]
  | cons entry rest ih =>
    have he := h entry
    unfold applyObjectMappingGo
    rcases happ : applyEntry prim dr sv idx src entry with ⟨evts, res⟩
    rw [happ] at he
    rcases res with e | opt
    · simpa using he
    · rcases hgo : applyObjectMappingGo prim dr sv idx src rest with ⟨evts', r⟩
      rw [hgo] at ih
      rcases r with e | pairs <;> simp [List.countP_append, he, ih]

/-- Lifting a vanishing event count through the field-mapping loop,
which additionally creates one primary instance per source field. -/
theorem mapFieldsGo_countP (p : Event → Bool) (prim : PrimaryStoreSpec) (dr : Bool)
    (idx : Nat) (src : List (String × Value))
    (hp : p .newPrimaryInstance = false)
    (h : ∀ sv entry, ((applyEntry prim dr sv idx src entry).1.countP p) = 0) :
    ∀ schema, ((mapFieldsGo prim dr idx src schema).1.countP p) = 0 := by
  intro schema
  induction schema with
  | nil => simp [mapFieldsGo]
  | cons fm rest ih =>
    obtain ⟨f, m⟩ := fm
    unfold mapFieldsGo
    dsimp only
    rcases hres : resolveMapping m src (lookupField src f) with e | patch
    · simp
    · have hgo := applyObjectMappingGo_countP p prim dr (lookupField src f) idx src (h _) patch
      unfold applyObjectMapping
      dsimp only
      rcases hg : applyObjectMappingGo prim dr (lookupField src f) idx src patch with ⟨evts, r⟩
      rw [hg] at hgo
      dsimp only
      dsimp only at hgo
      rcases r with e | pairs
      · simp [List.countP_cons, hp, hgo]
      · rcases hrest : mapFieldsGo prim dr idx src rest with ⟨evts', rr⟩
        rw [hrest] at ih
        dsimp only at ih
        simp [List.countP_append, List.countP_cons, hp, hgo, ih]

/-- The field-mapping phase never writes through the boot-level shared
primary instance: no `primaryUpdateOne` call is ever emitted there. -/
theorem mapFieldsGo_no_primaryUpsert (prim : PrimaryStoreSpec) (dr : Bool)
    (idx : Nat) (src : List (String × Value)) (schema : MigrationSchema) :
    ((mapFieldsGo prim dr idx src schema).1.countP Event.isPrimaryUpsert) = 0 :=
  mapFieldsGo_countP Event.isPrimaryUpsert prim dr idx src rfl
    (fun sv entry => (applyEntry_no_primary prim dr sv idx src entry).1) schema

/-- Per-record lifting of a vanishing count in dry-run: the only events
beyond the field-mapping phase are the catch-block notification. -/
theorem processRecord_dryRun_countP (p : Event → Bool) (prim : PrimaryStoreSpec)
    (schema : MigrationSchema) (idx : Nat) (item : List (String × Value))
    (hmf : ((mapFieldsGo prim true idx item schema).1.countP p) = 0)
    (hhe : ∀ i s md e, p (handleError i s md e) = false) :
    ((processRecord prim true schema idx item).1.countP p) = 0 := by
  unfold processRecord
  rcases h : mapFieldsGo prim true idx item schema with ⟨evts, res⟩
  rw [h] at hmf
  rcases res with e | pairs
  · simp [List.countP_append, List.countP_cons, hmf, hhe]
  · simpa using hmf

/-- Whole-run lifting of a vanishing per-record count. -/
theorem bootLoop_countP (p : Event → Bool) (prim : PrimaryStoreSpec) (dr : Bool)
    (schema : MigrationSchema)
    (h : ∀ idx item, ((processRecord prim dr schema idx item).1.countP p) = 0) :
    ∀ n items, ((bootLoop prim dr schema n items).1.countP p) = 0 := by
  intro n items
  induction items generalizing n with
  | nil => simp [bootLoop]
  | cons item rest ih =>
    unfold bootLoop
    dsimp only
    simp [List.countP_append, h (n + 1) item, ih (n + 1)]

/-- In a dry-run `boot`, no store's `updateOne` is ever called. -/
theorem boot_dryRun_noUpsert (prim : PrimaryStoreSpec) (schema : MigrationSchema)
    (items : List (List (String × Value))) :
    ((boot prim true schema items).1.countP Event.isUpsert) = 0 := by
  unfold boot
  dsimp only
  rw [List.countP_cons]
  have h := bootLoop_countP Event.isUpsert prim true schema
    (fun idx item => processRecord_dryRun_countP Event.isUpsert prim schema idx item
      (mapFieldsGo_countP Event.isUpsert prim true idx item rfl
        (fun sv entry => (applyEntry_dryRun_counts prim sv idx item entry).1) schema)
      (fun i s md e => isUpsert_handleError i s md e)) 0 items
  simp [h, Event.isUpsert]

/-- In a dry-run `boot`, the save callback is never invoked, neither for
primary records nor for relation writes. -/
theorem boot_dryRun_noSave (prim : PrimaryStoreSpec) (schema : MigrationSchema)
    (items : List (List (String × Value))) :
    ((boot prim true schema items).1.countP Event.isSave) = 0 := by
  unfold boot
  dsimp only
  rw [List.countP_cons]
  have h := bootLoop_countP Event.isSave prim true schema
    (fun idx item => processRecord_dryRun_countP Event.isSave prim schema idx item
      (mapFieldsGo_countP Event.isSave prim true idx item rfl
        (fun sv entry => (applyEntry_dryRun_counts prim sv idx item entry).2) schema)
      (fun i s md e => isSave_handleError i s md e)) 0 items
  simp [h, Event.isSave]

/-- The run visits every source record in draw order: events are the
concatenation of the per-record traces at indexes `n+1, n+2, …`, and the
yields are the concatenation of the per-record yields. -/
theorem bootLoop_enum (prim : PrimaryStoreSpec) (dr : Bool) (schema : MigrationSchema)
    (n : Nat) (items : List (List (String × Value))) :
    (bootLoop prim dr schema n items).1 =
      ((List.enumFrom (n + 1) items).map fun q =>
        (processRecord prim dr schema q.1 q.2).1).flatten ∧
    (bootLoop prim dr schema n items).2 =
      ((List.enumFrom (n + 1) items).map fun q =>
        ((processRecord prim dr schema q.1 q.2).2).toList).flatten := by
  induction items generalizing n with
  | nil => simp [bootLoop, List.enumFrom]
  | cons item rest ih =>
    unfold bootLoop
    dsimp only
    exact ⟨by simp [List.enumFrom, (ih (n + 1)).1], by simp [List.enumFrom, (ih (n + 1)).2]⟩

/-- In dry-run, a record's yield is its constructed patch when field
resolution succeeds, nothing otherwise. -/
theorem processRecord_dryRun_yield (prim : PrimaryStoreSpec) (schema : MigrationSchema)
    (idx : Nat) (item : List (String × Value)) :
    (processRecord prim true schema idx item).2 = dryRunPatch prim schema idx item := by
  unfold processRecord dryRunPatch
  rcases h : mapFieldsGo prim true idx item schema with ⟨evts, res⟩
  simp only [h]
  rcases res with e | pairs <;> simp

/-- In dry-run, the per-record yields are exactly the constructed
patches of the successfully resolved records. -/
theorem bootLoop_dryRun_yields (prim : PrimaryStoreSpec) (schema : MigrationSchema)
    (n : Nat) (items : List (List (String × Value))) :
    (bootLoop prim true schema n items).2 =
      (List.enumFrom (n + 1) items).filterMap fun q => dryRunPatch prim schema q.1 q.2 := by
  induction items generalizing n with
  | nil => simp [bootLoop, List.enumFrom]
  | cons item rest ih =>
    unfold bootLoop
    dsimp only
    rcases hy : (processRecord prim true schema (n + 1) item).2 with _ | v <;>
      simp [List.enumFrom, List.filterMap_cons, ih (n + 1),
        ← processRecord_dryRun_yield, hy]

theorem isNewRelated_handleError (i : Nat) (s : List (String × Value)) (md : Option Value)
    (e : MError) : Event.isNewRelated (handleError i s md e) = false := by
  unfold handleError
  by_cases h : e.isRangeError = true <;> simp [h, Event.isNewRelated]

/-! ### Claim theorems -/

/-- C1: the uniqueness-duplicate signal is the single error kind
classified as skip.  A unique-flagged value already present in the
primary store throws the duplicate `RangeError` (emitting only the
existence query, no write and no save); `handleError` routes a
`RangeError` to the skip callback and every other error kind to the
error callback; and a record whose field resolution throws the duplicate
signal gets exactly one skip notification, zero save notifications, no
primary-store write, and is absent from `boot`'s yielded sequence. -/
theorem C1_duplicate_is_the_only_skip_kind
    (prim : PrimaryStoreSpec) (dr : Bool) (sv : Value) (idx : Nat)
    (src : List (String × Value)) (key : String) (v : Value) (mo : Option RelatedStoreSpec)
    (idx₁ : Nat) (src₁ : List (String × Value)) (md₁ : Option Value) (e₁ e₂ : MError)
    (schema : MigrationSchema) (idx₂ : Nat) (item₂ : List (String × Value))
    (evts : List Event) (m : String)
    (hv : v.isNull = false)
    (hdup : prim.getListHas key v = true)
    (he₁ : e₁.isRangeError = true)
    (he₂ : e₂.isRangeError = false)
    (hmf : mapFieldsGo prim dr idx₂ item₂ schema = (evts, .error (.rangeError m)))
    (hsv : evts.countP Event.isSave = 0)
    (hsk : evts.countP Event.isSkip = 0) :
    applyEntry prim dr sv idx src (key, ⟨v, true, mo⟩)
      = ([.primaryGetList key v], .error (.rangeError (dupMsg key v)))
    ∧ handleError idx₁ src₁ md₁ e₁ = .skip ⟨idx₁, src₁, md₁, none, some e₁⟩
    ∧ handleError idx₁ src₁ md₁ e₂ = .error ⟨idx₁, src₁, md₁, none, some e₂⟩
    ∧ processRecord prim dr schema idx₂ item₂
        = (evts ++ [.skip ⟨idx₂, item₂, none, none, some (.rangeError m)⟩], none)
    ∧ ((processRecord prim dr schema idx₂ item₂).1.countP Event.isSkip) = 1
    ∧ ((processRecord prim dr schema idx₂ item₂).1.countP Event.isSave) = 0
    ∧ ((processRecord prim dr schema idx₂ item₂).1.countP Event.isPrimaryUpsert) = 0
    ∧ (processRecord prim dr schema idx₂ item₂).2 = none := by
  have h4 : processRecord prim dr schema idx₂ item₂
      = (evts ++ [.skip ⟨idx₂, item₂, none, none, some (.rangeError m)⟩], none) := by
    unfold processRecord
    rw [hmf]
    simp [handleError, MError.isRangeError]
  have hpu := mapFieldsGo_no_primaryUpsert prim dr idx₂ item₂ schema
  rw [hmf] at hpu
  dsimp only at hpu
  refine ⟨?_, ?_, ?_, h4, ?_, ?_, ?_, ?_⟩
  · simp [applyEntry, hv, hdup]
  · simp [handleError, he₁]
  · simp [handleError, he₂]
  · rw [h4]
    simp [List.countP_append, List.countP_cons, Event.isSkip, hsk]
  · rw [h4]
    simp [List.countP_append, List.countP_cons, Event.isSave, hsv]
  · rw [h4]
    simp [List.countP_append, List.countP_cons, Event.isPrimaryUpsert, hpu]
  · rw [h4]

/-- C1 witness: a pre-seeded store against a unique-flagged field, at
record index 1, produces one skip, no save, no primary write, no yield. -/
theorem C1_witness :
    applyEntry primDup false (Value.num 1) 1 itemA ("t", ⟨Value.num 1, true, none⟩)
      = ([.primaryGetList "t" (Value.num 1)],
         .error (.rangeError (dupMsg "t" (Value.num 1))))
    ∧ handleError 2 itemA none (.rangeError "x")
        = .skip ⟨2, itemA, none, none, some (.rangeError "x")⟩
    ∧ handleError 2 itemA none (.genericError "y")
        = .error ⟨2, itemA, none, none, some (.genericError "y")⟩
    ∧ processRecord primDup false schemaUnique 1 itemA
        = ([.newPrimaryInstance, .primaryGetList "t" (Value.num 1)]
            ++ [.skip ⟨1, itemA, none, none,
                 some (.rangeError (dupMsg "t" (Value.num 1)))⟩], none)
    ∧ ((processRecord primDup false schemaUnique 1 itemA).1.countP Event.isSkip) = 1
    ∧ ((processRecord primDup false schemaUnique 1 itemA).1.countP Event.isSave) = 0
    ∧ ((processRecord primDup false schemaUnique 1 itemA).1.countP Event.isPrimaryUpsert) = 0
    ∧ (processRecord primDup false schemaUnique 1 itemA).2 = none :=
  C1_duplicate_is_the_only_skip_kind primDup false (Value.num 1) 1 itemA "t" (Value.num 1)
    none 2 itemA none (.rangeError "x") (.genericError "y") schemaUnique 1 itemA
    [.newPrimaryInstance, .primaryGetList "t" (Value.num 1)] (dupMsg "t" (Value.num 1))
    rfl rfl rfl rfl rfl rfl rfl

/-- C2: a relation descriptor (`model` present, not unique, not
dry-run) invokes the related store's `updateOne` exactly once with the
resolved value, emits a save notification carrying the sub-record write
on the same save channel, and yields the persisted sub-record's
`indexKey` field value — which is therefore what the merged patch holds
for that field when this entry is its last binding. -/
theorem C2_relation_upsert_once_and_foreign_key
    (prim : PrimaryStoreSpec) (sv : Value) (idx : Nat) (src : List (String × Value))
    (key : String) (v : Value) (store : RelatedStoreSpec) (saved : Value)
    (ps : List (String × Value))
    (hv : v.isNull = false)
    (hok : store.updateOne v = .ok saved) :
    applyEntry prim false sv idx src (key, ⟨v, false, some store⟩)
      = ([.newRelatedInstance store.id, .relatedUpdateOne store.id v,
          .save ⟨idx, src, some v, some saved, none⟩],
         .ok (some (key, saved.getField store.indexKey)))
    ∧ ((applyEntry prim false sv idx src (key, ⟨v, false, some store⟩)).1.countP
        Event.isUpsert) = 1
    ∧ lookupField (fromEntries (ps ++ [(key, saved.getField store.indexKey)])) key
        = saved.getField store.indexKey := by
  have h1 : applyEntry prim false sv idx src (key, ⟨v, false, some store⟩)
      = ([.newRelatedInstance store.id, .relatedUpdateOne store.id v,
          .save ⟨idx, src, some v, some saved, none⟩],
         .ok (some (key, saved.getField store.indexKey))) := by
    simp [applyEntry, hv, hok]
  refine ⟨h1, ?_, ?_⟩
  · rw [h1]
    simp [List.countP_cons, Event.isUpsert]
  · rw [lookupField_fromEntries, List.reverse_append]
    simp [lookupField]

/-- C2 witness: the sub-record `{n:5}` persisted through `relOk` turns
into the foreign key `42`, with one related upsert and one save. -/
theorem C2_witness :
    applyEntry primOk false Value.null 1 itemA
      ("u", ⟨Value.obj [("n", Value.num 5)], false, some relOk⟩)
      = ([.newRelatedInstance relOk.id,
          .relatedUpdateOne relOk.id (Value.obj [("n", Value.num 5)]),
          .save ⟨1, itemA, some (Value.obj [("n", Value.num 5)]),
            some (Value.obj [("id", Value.num 42)]), none⟩],
         .ok (some ("u", (Value.obj [("id", Value.num 42)]).getField relOk.indexKey)))
    ∧ ((applyEntry primOk false Value.null 1 itemA
        ("u", ⟨Value.obj [("n", Value.num 5)], false, some relOk⟩)).1.countP
          Event.isUpsert) = 1
    ∧ lookupField (fromEntries ([("t", Value.num 9)]
        ++ [("u", (Value.obj [("id", Value.num 42)]).getField relOk.indexKey)])) "u"
        = (Value.obj [("id", Value.num 42)]).getField relOk.indexKey :=
  C2_relation_upsert_once_and_foreign_key primOk Value.null 1 itemA "u"
    (Value.obj [("n", Value.num 5)]) relOk (Value.obj [("id", Value.num 42)])
    [("t", Value.num 9)] rfl rfl


/-- Step equation of the patch-entry loop on a cons cell. -/
theorem applyObjectMappingGo_cons (prim : PrimaryStoreSpec) (dr : Bool) (sv : Value)
    (idx : Nat) (src : List (String × Value)) (entry : String × Descriptor)
    (rest : TargetPatchSpec) :
    applyObjectMappingGo prim dr sv idx src (entry :: rest) =
      match applyEntry prim dr sv idx src entry with
      | (evts, .error e) => (evts, .error e)
      | (evts, .ok opt) =>
        match applyObjectMappingGo prim dr sv idx src rest with
        | (evts', .error e) => (evts ++ evts', .error e)
        | (evts', .ok pairs) => (evts ++ evts', .ok (opt.toList ++ pairs)) := rfl

/-- C3: a failing related-store upsert emits a relation-error
notification, contributes no pair for its target field (the field is
omitted, not poisoned), does not abort the entry loop (processing
continues with the remaining entries unchanged), and the parent
record's own persistence still proceeds: with the field pairs that
resolution produced, the primary upsert still runs and the record is
still yielded. -/
theorem C3_relation_failure_degrades_not_aborts
    (prim : PrimaryStoreSpec) (sv : Value) (idx : Nat) (src : List (String × Value))
    (key : String) (v : Value) (store : RelatedStoreSpec) (e : MError)
    (rest : TargetPatchSpec) (evts' : List Event)
    (r : Except MError (List (String × Value)))
    (schema : MigrationSchema) (idx₃ : Nat)
    (item₃ : List (String × Value)) (evts₃ : List Event)
    (pairs₃ : List (String × Value)) (t : Value)
    (hv : v.isNull = false)
    (he : e.isRangeError = false)
    (herr : store.updateOne v = .error e)
    (hgo : applyObjectMappingGo prim false sv idx src rest = (evts', r))
    (hmf : mapFieldsGo prim false idx₃ item₃ schema = (evts₃, .ok pairs₃))
    (hup : prim.updateOne (fromEntries pairs₃) = .ok t) :
    applyEntry prim false sv idx src (key, ⟨v, false, some store⟩)
      = ([.newRelatedInstance store.id, .relatedUpdateOne store.id v,
          .error ⟨idx, src, some v, none, some e⟩],
         .ok none)
    ∧ applyObjectMappingGo prim false sv idx src ((key, ⟨v, false, some store⟩) :: rest)
        = ([.newRelatedInstance store.id, .relatedUpdateOne store.id v,
            .error ⟨idx, src, some v, none, some e⟩] ++ evts', r)
    ∧ processRecord prim false schema idx₃ item₃
        = (evts₃ ++ [.primaryUpdateOne (fromEntries pairs₃),
            .save ⟨idx₃, item₃, some (.obj (fromEntries pairs₃)), some t, none⟩],
           some t) := by
  have h1 : applyEntry prim false sv idx src (key, ⟨v, false, some store⟩)
      = ([.newRelatedInstance store.id, .relatedUpdateOne store.id v,
          .error ⟨idx, src, some v, none, some e⟩],
         .ok none) := by
    simp [applyEntry, hv, herr, handleError, he]
  refine ⟨h1, ?_, ?_⟩
  · rw [applyObjectMappingGo_cons, h1, hgo]
    rcases r with e' | pairs <;> simp
  · unfold processRecord
    rw [hmf]
    dsimp only
    rw [if_neg (by simp), hup]

/-- C3 witness: the failing related store `relBad` inside `schemaRelBad`
produces a relation-error notification, drops field `u`, and the parent
record (with its remaining field `t`) is still upserted and yielded. -/
theorem C3_witness :
    applyEntry primOk false Value.null 1 itemA
      ("u", ⟨Value.obj [("n", Value.num 5)], false, some relBad⟩)
      = ([.newRelatedInstance relBad.id,
          .relatedUpdateOne relBad.id (Value.obj [("n", Value.num 5)]),
          .error ⟨1, itemA, some (Value.obj [("n", Value.num 5)]), none,
            some (.genericError "boom")⟩],
         .ok none)
    ∧ applyObjectMappingGo primOk false Value.null 1 itemA
        (("u", ⟨Value.obj [("n", Value.num 5)], false, some relBad⟩) :: [])
        = ([.newRelatedInstance relBad.id,
            .relatedUpdateOne relBad.id (Value.obj [("n", Value.num 5)]),
            .error ⟨1, itemA, some (Value.obj [("n", Value.num 5)]), none,
              some (.genericError "boom")⟩] ++ [],
           .ok [])
    ∧ processRecord primOk false schemaRelBad 1 itemA
        = ([.newPrimaryInstance, .newRelatedInstance relBad.id,
            .relatedUpdateOne relBad.id (Value.obj [("n", Value.num 5)]),
            .error ⟨1, itemA, some (Value.obj [("n", Value.num 5)]), none,
              some (.genericError "boom")⟩, .newPrimaryInstance]
            ++ [.primaryUpdateOne (fromEntries [("t", Value.num 2)]),
              .save ⟨1, itemA, some (.obj (fromEntries [("t", Value.num 2)])),
                some (.obj [("t", Value.num 2)]), none⟩],
           some (.obj [("t", Value.num 2)])) :=
  C3_relation_failure_degrades_not_aborts primOk Value.null 1 itemA "u"
    (Value.obj [("n", Value.num 5)]) relBad (.genericError "boom") [] [] (.ok [])
    schemaRelBad 1 itemA
    [.newPrimaryInstance, .newRelatedInstance relBad.id,
      .relatedUpdateOne relBad.id (Value.obj [("n", Value.num 5)]),
      .error ⟨1, itemA, some (Value.obj [("n", Value.num 5)]), none,
        some (.genericError "boom")⟩, .newPrimaryInstance]
    [("t", Value.num 2)] (.obj [("t", Value.num 2)]) rfl rfl rfl rfl rfl rfl

/-- C4: with `dryRun` true, no store's `updateOne` is invoked at all —
primary or related — across all records; `boot` still yields exactly
one item per successfully resolved record, namely the constructed patch
itself; the uniqueness check still executes (its existence query is
emitted and it can still raise the duplicate signal); and a relation
descriptor still goes through the value-defaulting path, yielding the
raw (non-substituted) value with no related-store call. -/
theorem C4_dryRun_no_writes_yields_patches
    (prim : PrimaryStoreSpec) (schema : MigrationSchema)
    (items : List (List (String × Value)))
    (sv : Value) (idx : Nat) (src : List (String × Value)) (key : String) (v : Value)
    (mo : Option RelatedStoreSpec) (store : RelatedStoreSpec)
    (hv : v.isNull = false)
    (hdup : prim.getListHas key v = true) :
    ((boot prim true schema items).1.countP Event.isUpsert) = 0
    ∧ (boot prim true schema items).2
        = ((List.enumFrom 1 items).filterMap fun q => dryRunPatch prim schema q.1 q.2)
    ∧ applyEntry prim true sv idx src (key, ⟨v, true, mo⟩)
        = ([.primaryGetList key v], .error (.rangeError (dupMsg key v)))
    ∧ applyEntry prim true sv idx src (key, ⟨v, false, some store⟩)
        = ([], .ok (some (key, v))) := by
  refine ⟨boot_dryRun_noUpsert prim schema items, ?_, ?_, ?_⟩
  · unfold boot
    dsimp only
    exact bootLoop_dryRun_yields prim schema 0 items
  · simp [applyEntry, hv, hdup]
  · simp [applyEntry, hv]

/-- C4 witness: a dry run over one record against a pre-seeded store:
no upsert events anywhere, yields are the constructed patches, the
duplicate is still raised, and a relation descriptor yields its raw
value untouched. -/
theorem C4_witness :
    ((boot primDup true schemaRename [itemA]).1.countP Event.isUpsert) = 0
    ∧ (boot primDup true schemaRename [itemA]).2
        = ((List.enumFrom 1 [itemA]).filterMap fun q =>
            dryRunPatch primDup schemaRename q.1 q.2)
    ∧ applyEntry primDup true Value.null 1 itemA ("t", ⟨Value.num 1, true, none⟩)
        = ([.primaryGetList "t" (Value.num 1)],
           .error (.rangeError (dupMsg "t" (Value.num 1))))
    ∧ applyEntry primDup true Value.null 1 itemA ("t", ⟨Value.num 1, false, some relOk⟩)
        = ([], .ok (some ("t", Value.num 1))) :=
  C4_dryRun_no_writes_yields_patches primDup schemaRename [itemA] Value.null 1 itemA
    "t" (Value.num 1) none relOk rfl rfl

/-- C5: records are drawn in order with the index starting at 1 and
increasing by exactly 1 per record drawn, regardless of outcome: the
run's trace and yields are the concatenations of the per-record traces
and yields at indexes 1, 2, 3, …, so a per-record failure (whose record
contributes exactly one classified notification and no yield) never
aborts the run. -/
theorem C5_one_based_draw_order_indexing
    (prim : PrimaryStoreSpec) (dr : Bool) (schema : MigrationSchema)
    (n : Nat) (items : List (List (String × Value)))
    (idx : Nat) (item : List (String × Value)) (evts : List Event) (e : MError)
    (hmf : mapFieldsGo prim dr idx item schema = (evts, .error e)) :
    (boot prim dr schema items).1
      = .newPrimaryInstance ::
          ((List.enumFrom 1 items).map fun q =>
            (processRecord prim dr schema q.1 q.2).1).flatten
    ∧ (boot prim dr schema items).2
        = ((List.enumFrom 1 items).map fun q =>
            ((processRecord prim dr schema q.1 q.2).2).toList).flatten
    ∧ (bootLoop prim dr schema n items).1
        = ((List.enumFrom (n + 1) items).map fun q =>
            (processRecord prim dr schema q.1 q.2).1).flatten
    ∧ processRecord prim dr schema idx item
        = (evts ++ [handleError idx item none e], none) := by
  refine ⟨?_, ?_, (bootLoop_enum prim dr schema n items).1, ?_⟩
  · unfold boot
    dsimp only
    rw [(bootLoop_enum prim dr schema 0 items).1]
  · unfold boot
    dsimp only
    rw [(bootLoop_enum prim dr schema 0 items).2]
  · unfold processRecord
    rw [hmf]

/-- C5 witness: a two-record run whose second field mapping throws: the
trace decomposes by record at indexes 1 and 2, and the failing record
contributes exactly its resolution events plus one notification. -/
theorem C5_witness :
    (boot primOk false schemaThrow [itemA, itemA]).1
      = .newPrimaryInstance ::
          ((List.enumFrom 1 [itemA, itemA]).map fun q =>
            (processRecord primOk false schemaThrow q.1 q.2).1).flatten
    ∧ (boot primOk false schemaThrow [itemA, itemA]).2
        = ((List.enumFrom 1 [itemA, itemA]).map fun q =>
            ((processRecord primOk false schemaThrow q.1 q.2).2).toList).flatten
    ∧ (bootLoop primOk false schemaThrow 0 [itemA, itemA]).1
        = ((List.enumFrom 1 [itemA, itemA]).map fun q =>
            (processRecord primOk false schemaThrow q.1 q.2).1).flatten
    ∧ processRecord primOk false schemaThrow 1 itemA
        = ([.newPrimaryInstance]
            ++ [handleError 1 itemA none (.genericError "boom")], none) :=
  C5_one_based_draw_order_indexing primOk false schemaThrow 0 [itemA, itemA] 1 itemA
    [.newPrimaryInstance] (.genericError "boom") rfl

/-- Step equation of the field-mapping loop on a cons cell. -/
theorem mapFieldsGo_cons (prim : PrimaryStoreSpec) (dr : Bool) (idx : Nat)
    (src : List (String × Value)) (f : String) (m : FieldMapping)
    (rest : MigrationSchema) :
    mapFieldsGo prim dr idx src ((f, m) :: rest) =
      match resolveMapping m src (lookupField src f) with
      | .error e => ([], .error e)
      | .ok patch =>
        match applyObjectMapping prim dr (lookupField src f) idx src patch with
        | (evts, .error e) => (evts, .error e)
        | (evts, .ok pairs) =>
          match mapFieldsGo prim dr idx src rest with
          | (evts', r) => (evts ++ evts', r.map fun ps => pairs ++ ps) := rfl

/-- C6: merging the per-field target patches is a plain union with
last-write-wins: the merged object reads each key as the last pair
declared for it; when a later pair list also binds a key, its binding
wins over any earlier one; and the pair lists are produced in schema
declaration order, each field's pairs preceding those of the fields
declared after it. -/
theorem C6_merge_is_union_last_wins
    (ps p₁ p₂ : List (String × Value)) (key : String)
    (prim : PrimaryStoreSpec) (dr : Bool) (idx : Nat) (src : List (String × Value))
    (f : String) (m : FieldMapping) (rest : MigrationSchema)
    (patch : TargetPatchSpec) (evts evts' : List Event)
    (r : Except MError (List (String × Value))) (pf : List (String × Value))
    (hk : key ∈ p₂.map Prod.fst)
    (hres : resolveMapping m src (lookupField src f) = .ok patch)
    (hap : applyObjectMapping prim dr (lookupField src f) idx src patch = (evts, .ok pf))
    (hrest : mapFieldsGo prim dr idx src rest = (evts', r)) :
    lookupField (fromEntries ps) key = lookupField ps.reverse key
    ∧ lookupField (fromEntries (p₁ ++ p₂)) key = lookupField (fromEntries p₂) key
    ∧ mapFieldsGo prim dr idx src ((f, m) :: rest)
        = (evts ++ evts', r.map fun qs => pf ++ qs) := by
  refine ⟨lookupField_fromEntries ps key, fromEntries_append_right p₁ p₂ key hk, ?_⟩
  simp only [mapFieldsGo_cons, hres, hap, hrest]

/-- C6 witness: two source fields resolving into the same target field
`k`: the merged value is the later one, and a one-field schema produces
its pairs ahead of the (empty) remainder. -/
theorem C6_witness :
    lookupField (fromEntries [("x", Value.num 1)]) "k"
      = lookupField [("x", Value.num 1)].reverse "k"
    ∧ lookupField (fromEntries ([("k", Value.num 1)] ++ [("k", Value.num 2)])) "k"
        = lookupField (fromEntries [("k", Value.num 2)]) "k"
    ∧ mapFieldsGo primOk false 1 itemA (("a", .rename "t") :: [])
        = ([.newPrimaryInstance] ++ [],
           (Except.ok []).map fun qs => [("t", Value.num 1)] ++ qs) :=
  C6_merge_is_union_last_wins [("x", Value.num 1)] [("k", Value.num 1)]
    [("k", Value.num 2)] "k" primOk false 1 itemA "a" (.rename "t") []
    [("t", ⟨Value.num 1, false, none⟩)] [.newPrimaryInstance] [] (.ok [])
    [("t", Value.num 1)] (by simp) rfl rfl rfl

/-- C7: an omitted descriptor value (`value ??= sourceValue`) behaves
exactly as if the source field's raw value had been declared; an entry
whose effective value is still nullish after defaulting is dropped — it
emits nothing, contributes no pair, and the loop continues over the
remaining entries as if the entry were absent. -/
theorem C7_value_default_and_null_drop
    (prim : PrimaryStoreSpec) (dr : Bool) (sv : Value) (idx : Nat)
    (src : List (String × Value)) (key : String) (u : Bool)
    (mo : Option RelatedStoreSpec) (d : Descriptor) (rest : TargetPatchSpec)
    (hn : (if d.value.isNull then sv else d.value).isNull = true) :
    applyEntry prim dr sv idx src (key, ⟨.null, u, mo⟩)
      = applyEntry prim dr sv idx src (key, ⟨sv, u, mo⟩)
    ∧ applyEntry prim dr sv idx src (key, d) = ([], .ok none)
    ∧ applyObjectMappingGo prim dr sv idx src ((key, d) :: rest)
        = applyObjectMappingGo prim dr sv idx src rest := by
  have h2 : applyEntry prim dr sv idx src (key, d) = ([], .ok none) := by
    unfold applyEntry
    dsimp only
    rw [if_pos hn]
  refine ⟨?_, h2, ?_⟩
  · unfold applyEntry
    dsimp only
    rw [show (if (Value.null).isNull = true then sv else Value.null) = sv from rfl,
      ite_self]
  · rw [applyObjectMappingGo_cons, h2]
    rcases hgo : applyObjectMappingGo prim dr sv idx src rest with ⟨evts', r⟩
    rcases r with e' | pairs <;> simp

/-- C7 witness: a descriptor with omitted value over a nullish source
value is dropped entirely, and the loop over a following entry is
unchanged by its presence. -/
theorem C7_witness :
    applyEntry primOk false Value.null 1 itemA ("t", ⟨.null, true, none⟩)
      = applyEntry primOk false Value.null 1 itemA ("t", ⟨Value.null, true, none⟩)
    ∧ applyEntry primOk false Value.null 1 itemA ("t", ⟨.null, false, none⟩)
        = ([], .ok none)
    ∧ applyObjectMappingGo primOk false Value.null 1 itemA
        (("t", ⟨Value.null, false, none⟩) :: [("z", ⟨Value.num 3, false, none⟩)])
        = applyObjectMappingGo primOk false Value.null 1 itemA
            [("z", ⟨Value.num 3, false, none⟩)] :=
  C7_value_default_and_null_drop primOk false Value.null 1 itemA "t" true none
    ⟨Value.null, false, none⟩ [("z", ⟨Value.num 3, false, none⟩)] rfl

/-- C8 counterexample: for the record `itemA` under `schemaThrow`, field
`a` has already resolved to the pair `("t", 1)` when field `b`'s
resolver throws, yet the single error notification of the run carries
`mappedData = none` (JS `undefined`) — not the partial patch, which
would have been `some (obj (fromEntries [("t", 1)]))`. -/
theorem C8_counterexample :
    ((processRecord primOk false schemaThrow 1 itemA).1.filter Event.isError)
      = [.error ⟨1, itemA, none, none, some (.genericError "boom")⟩]
    ∧ (mapFieldsGo primOk false 1 itemA [("a", .rename "t")]).2
        = .ok [("t", Value.num 1)]
    ∧ some (Value.obj (fromEntries [("t", Value.num 1)])) ≠ (none : Option Value) :=
  ⟨rfl, rfl, by simp⟩

/-- C8 (amended): the error notification carries the source item and
the error; its `mappedData` is the complete merged patch when the
failure happened at the primary-store upsert, but is absent
(`undefined`) when the failure happened during field resolution — the
partially resolved pairs are discarded, not reported. -/
theorem C8_error_payload_mappedData
    (prim : PrimaryStoreSpec) (dr : Bool) (schema : MigrationSchema)
    (idx : Nat) (item : List (String × Value)) (evts : List Event) (e : MError)
    (schema₂ : MigrationSchema) (idx₂ : Nat) (item₂ : List (String × Value))
    (evts₂ : List Event) (pairs : List (String × Value)) (e₂ : MError)
    (hmf : mapFieldsGo prim dr idx item schema = (evts, .error e))
    (hok : mapFieldsGo prim false idx₂ item₂ schema₂ = (evts₂, .ok pairs))
    (hup : prim.updateOne (fromEntries pairs) = .error e₂) :
    processRecord prim dr schema idx item
      = (evts ++ [handleError idx item none e], none)
    ∧ processRecord prim false schema₂ idx₂ item₂
        = (evts₂ ++ [.primaryUpdateOne (fromEntries pairs),
            handleError idx₂ item₂ (some (.obj (fromEntries pairs))) e₂], none) := by
  constructor
  · unfold processRecord
    rw [hmf]
  · unfold processRecord
    rw [hok]
    dsimp only
    rw [if_neg (by simp), hup]

/-- C8 witness: a resolution-time failure reports `mappedData = none`,
while an upsert-time failure (store `primFail`) reports the full merged
patch. -/
theorem C8_witness :
    processRecord primFail false schemaThrow 1 itemA
      = ([.newPrimaryInstance]
          ++ [handleError 1 itemA none (.genericError "boom")], none)
    ∧ processRecord primFail false schemaRename 1 itemA
        = ([.newPrimaryInstance]
            ++ [.primaryUpdateOne (fromEntries [("t", Value.num 1)]),
              handleError 1 itemA (some (.obj (fromEntries [("t", Value.num 1)])))
                (.genericError "db down")], none) :=
  C8_error_payload_mappedData primFail false schemaThrow 1 itemA
    [.newPrimaryInstance] (.genericError "boom") schemaRename 1 itemA
    [.newPrimaryInstance] [("t", Value.num 1)] (.genericError "db down")
    rfl rfl rfl

/-- C9 counterexample: a one-record, one-field run creates the primary
target-store class twice — once in `boot` (the shared write instance)
and once inside `applyObjectMapping` for the field's application — so
the primary instance is not created exactly once per `boot` run. -/
theorem C9_counterexample :
    ((boot primOk false schemaRename [[("a", Value.num 1)]]).1.countP
        Event.isNewPrimary) = 2
    ∧ ((boot primOk false schemaRename [[("a", Value.num 1)]]).1.countP
        Event.isNewPrimary) ≠ 1 :=
  ⟨rfl, by decide⟩

/-- C9 (amended): `boot` creates one primary-store instance up front
(the head of the trace), and each source-field mapping application
creates exactly one further fresh primary-store instance — the one its
uniqueness queries run against — while each relation occurrence creates
exactly one fresh related-store instance, with no sharing. -/
theorem C9_instance_creation_discipline
    (prim : PrimaryStoreSpec) (dr : Bool) (sv : Value) (idx : Nat)
    (src : List (String × Value)) (mapping : TargetPatchSpec)
    (schema : MigrationSchema) (items : List (List (String × Value)))
    (key : String) (v : Value) (store : RelatedStoreSpec)
    (hv : v.isNull = false) :
    (boot prim dr schema items).1.head? = some .newPrimaryInstance
    ∧ ((applyObjectMapping prim dr sv idx src mapping).1.countP Event.isNewPrimary) = 1
    ∧ ((applyEntry prim false sv idx src (key, ⟨v, false, some store⟩)).1.countP
        Event.isNewRelated) = 1 := by
  refine ⟨rfl, ?_, ?_⟩
  · unfold applyObjectMapping
    dsimp only
    rw [List.countP_cons]
    have h := applyObjectMappingGo_countP Event.isNewPrimary prim dr sv idx src
      (fun entry => (applyEntry_no_primary prim dr sv idx src entry).2) mapping
    simp [h, Event.isNewPrimary]
  · rcases hupd : store.updateOne v with e | saved
    · by_cases hr : e.isRangeError = true <;>
        simp [applyEntry, hv, hupd, handleError, hr, List.countP_cons, Event.isNewRelated]
    · simp [applyEntry, hv, hupd, List.countP_cons, Event.isNewRelated]

/-- C9 witness: concrete instantiation over a one-entry literal patch
and the `relOk` related store. -/
theorem C9_witness :
    (boot primOk false schemaRename [itemA]).1.head? = some .newPrimaryInstance
    ∧ ((applyObjectMapping primOk false Value.null 1 itemA
        [("t", ⟨Value.num 1, false, none⟩)]).1.countP Event.isNewPrimary) = 1
    ∧ ((applyEntry primOk false Value.null 1 itemA
        ("u", ⟨Value.obj [("n", Value.num 5)], false, some relOk⟩)).1.countP
          Event.isNewRelated) = 1 :=
  C9_instance_creation_discipline primOk false Value.null 1 itemA
    [("t", ⟨Value.num 1, false, none⟩)] schemaRename [itemA] "u"
    (Value.obj [("n", Value.num 5)]) relOk rfl

/-- C10: in dry-run the save callback is never invoked — for primary
records or relation writes — across any run, while the skip and error
callbacks still fire: a record whose resolution throws the duplicate
signal still produces a skip notification, and one whose resolution
throws a generic error still produces an error notification. -/
theorem C10_dryRun_save_never_skip_error_still
    (prim : PrimaryStoreSpec) (schema : MigrationSchema)
    (items : List (List (String × Value)))
    (schema₁ : MigrationSchema) (idx₁ : Nat) (item₁ : List (String × Value))
    (evts₁ : List Event) (m : String)
    (schema₂ : MigrationSchema) (idx₂ : Nat) (item₂ : List (String × Value))
    (evts₂ : List Event) (s : String)
    (hmf₁ : mapFieldsGo prim true idx₁ item₁ schema₁ = (evts₁, .error (.rangeError m)))
    (hmf₂ : mapFieldsGo prim true idx₂ item₂ schema₂ = (evts₂, .error (.genericError s))) :
    ((boot prim true schema items).1.countP Event.isSave) = 0
    ∧ processRecord prim true schema₁ idx₁ item₁
        = (evts₁ ++ [.skip ⟨idx₁, item₁, none, none, some (.rangeError m)⟩], none)
    ∧ processRecord prim true schema₂ idx₂ item₂
        = (evts₂ ++ [.error ⟨idx₂, item₂, none, none, some (.genericError s)⟩], none) := by
  refine ⟨boot_dryRun_noSave prim schema items, ?_, ?_⟩
  · unfold processRecord
    rw [hmf₁]
    simp [handleError, MError.isRangeError]
  · unfold processRecord
    rw [hmf₂]
    simp [handleError, MError.isRangeError]

/-- C10 witness: a dry run against a pre-seeded store emits no save
events; the duplicate record still produces a skip and the throwing
record still produces an error. -/
theorem C10_witness :
    ((boot primDup true schemaUnique [itemA]).1.countP Event.isSave) = 0
    ∧ processRecord primDup true schemaUnique 1 itemA
        = ([.newPrimaryInstance, .primaryGetList "t" (Value.num 1)]
            ++ [.skip ⟨1, itemA, none, none,
              some (.rangeError (dupMsg "t" (Value.num 1)))⟩], none)
    ∧ processRecord primDup true schemaThrow 1 itemA
        = ([.newPrimaryInstance]
            ++ [.error ⟨1, itemA, none, none, some (.genericError "boom")⟩], none) :=
  C10_dryRun_save_never_skip_error_still primDup schemaUnique [itemA]
    schemaUnique 1 itemA [.newPrimaryInstance, .primaryGetList "t" (Value.num 1)]
    (dupMsg "t" (Value.num 1)) schemaThrow 1 itemA [.newPrimaryInstance] "boom"
    rfl rfl
